import Mathlib

/-!
Verification of the StudyGenius flashcard review scheduler and the
quota-aware client-side storage layer, as a shallow embedding in Lean.

JavaScript numbers are modelled as exact rationals; `Math.round` is
modelled as `jsRound q = ⌊q + 1/2⌋`, which is the JavaScript semantics
of rounding half toward positive infinity.
-/

namespace StudyGenius

/-- JavaScript `Math.round`: round half toward positive infinity. -/
def jsRound (q : ℚ) : ℤ := ⌊q + 1/2⌋

/-- The flashcard record from `types.ts`. -/
structure Flashcard where
  id : String
  front : String
  back : String
  nextReview : ℚ
  interval : ℚ
  easeFactor : ℚ
  repetitions : ℤ
deriving DecidableEq, Repr

/-- The four ratings accepted by `handleRating` in the review component. -/
inductive Rating where
  | again
  | hard
  | good
  | easy
deriving DecidableEq, Repr

/-- The unrounded new interval computed by `handleRating`
(the local variable `newInterval` right before the updated card is built). -/
def rawNewInterval (card : Flashcard) (rating : Rating) : ℚ :=
  match rating with
  | Rating.again => 1
  | Rating.hard => max 1 (card.interval * 1.2)
  | Rating.good => max 1 (card.interval * 2.5)
  | Rating.easy => max 1 (card.interval * 1.3 * card.easeFactor)

/-- The new ease factor computed by `handleRating` (`newEase`). -/
def newEaseOf (card : Flashcard) (rating : Rating) : ℚ :=
  match rating with
  | Rating.again => card.easeFactor
  | Rating.hard => max 1.3 (card.easeFactor - 0.15)
  | Rating.good => card.easeFactor
  | Rating.easy => card.easeFactor + 0.15

/-- The new repetition count computed by `handleRating` (`newReps`). -/
def newRepsOf (card : Flashcard) (rating : Rating) : ℤ :=
  match rating with
  | Rating.again => 0
  | _ => card.repetitions + 1

/-- The SM-2 inspired scheduling step of `handleRating` in the flashcard
review component: builds the updated card.  `now` is the value of
`Date.now()` at the moment the updated card is built.  The stored
`interval` field is `Math.round(newInterval)`, while `nextReview` adds
the unrounded `newInterval * 24 * 60 * 60 * 1000` to `now`, exactly as
in the source. -/
def handleRating (currentCard : Flashcard) (rating : Rating) (now : ℚ) : Flashcard :=
  let newInterval := rawNewInterval currentCard rating
  let newEase := newEaseOf currentCard rating
  let newReps := newRepsOf currentCard rating
  { currentCard with
    interval := (jsRound newInterval : ℚ)
    easeFactor := newEase
    repetitions := newReps
    nextReview := now + newInterval * (24 * 60 * 60 * 1000) }

/-! ## Storage layer (`src/services/storageService.ts`) -/

/-- Outcome of one `localStorage.setItem` attempt, distinguishing the
quota-exceeded exception (`QuotaExceededError`, code 22 or 1014) that the
pruning logic catches from any unrelated storage error. -/
inductive SetOutcome where
  | ok
  | quota
  | otherErr
deriving DecidableEq, Repr

/-- A value stored under one key: a string that `JSON.parse` decodes back
to the list `items`, or a string on which `JSON.parse` throws. -/
inductive StoredVal (α : Type) where
  | wellFormed (items : List α)
  | malformed
deriving DecidableEq, Repr

/-- The browser key-value storage, viewed at one item type. -/
abbrev Store (α : Type) := String → Option (StoredVal α)

/-- The quota-managed write `setItemWithRetry`: try to store the
serialized list; on a quota error prune to the first half and retry,
until the write succeeds or a single item remains; on any other error,
or when a single item still exceeds the quota, abandon the write.  The
`outcome` parameter models which serialized lists the storage accepts,
fixed during the (synchronous) call. -/
def setItemWithRetry {α : Type} (outcome : List α → SetOutcome) (st : Store α)
    (key : String) (data : List α) : Store α :=
  match outcome data with
  | SetOutcome.ok => Function.update st key (some (StoredVal.wellFormed data))
  | SetOutcome.quota =>
    if h : data.length > 1 then
      setItemWithRetry outcome st key (data.take (data.length / 2))
    else st
  | SetOutcome.otherErr => st
termination_by data.length
decreasing_by
  simp only [List.length_take]
  omega

/-- Fuel-bounded variant of `setItemWithRetry`, used to state that the
recursion terminates within `data.length` recursive steps. -/
def setItemWithRetryFuel {α : Type} (outcome : List α → SetOutcome) (fuel : ℕ)
    (st : Store α) (key : String) (data : List α) : Option (Store α) :=
  match fuel with
  | 0 => none
  | Nat.succ fuel =>
    match outcome data with
    | SetOutcome.ok => some (Function.update st key (some (StoredVal.wellFormed data)))
    | SetOutcome.quota =>
      if data.length > 1 then
        setItemWithRetryFuel outcome fuel st key (data.take (data.length / 2))
      else some st
    | SetOutcome.otherErr => some st

/-- The sequence of pruned sizes tried after an initial failure at size
`n`: `n / 2, n / 4, ..., 1` (empty when `n ≤ 1`). -/
def halvingSizes (n : ℕ) : List ℕ :=
  if n ≤ 1 then [] else (n / 2) :: halvingSizes (n / 2)
termination_by n
decreasing_by omega

/-- Key base `studygenius_history_`. -/
def historyKeyBase : String := "studygenius_history_"

/-- Key base `studygenius_results_`. -/
def resultsKeyBase : String := "studygenius_results_"

/-- Key base `studygenius_flashcards_`. -/
def flashcardsKeyBase : String := "studygenius_flashcards_"

/-- The helper `getUserKey`: concatenates a collection base key with the
user id. -/
def getUserKey (base : String) (userId : String) : String := base ++ userId

/-- `StudyNoteData` from `types.ts`. -/
structure StudyNoteData where
  title : String
  summary : String
  markdownContent : String
  mermaidCode : Option String
  timestamp : ℤ
deriving DecidableEq, Repr

/-- `QuizQuestion` from `types.ts`. -/
structure QuizQuestion where
  id : ℤ
  type : String
  question : String
  options : List String
  correctAnswer : String
  explanation : String
deriving DecidableEq, Repr

/-- `QuizData` from `types.ts`. -/
structure QuizData where
  title : String
  topic : String
  questions : List QuizQuestion
  timestamp : ℤ
deriving DecidableEq, Repr

/-- `HomeworkData` from `types.ts`. -/
structure HomeworkData where
  title : String
  feedback : String
  originalImage : Option String
  timestamp : ℤ
deriving DecidableEq, Repr

/-- `PodcastData` from `types.ts`. -/
structure PodcastData where
  title : String
  topic : String
  script : String
  audioBase64 : String
  timestamp : ℤ
deriving DecidableEq, Repr

/-- `CheatSheetData` from `types.ts`. -/
structure CheatSheetData where
  title : String
  topic : String
  content : String
  timestamp : ℤ
deriving DecidableEq, Repr

/-- `FlashcardSet` from `types.ts`. -/
structure FlashcardSet where
  topic : String
  cards : List Flashcard
deriving DecidableEq, Repr

/-- The discriminant of `HistoryItem.type` in `types.ts`. -/
inductive ItemType where
  | note
  | quiz
  | homework
  | flashcards
  | lazy
  | podcast
  | cheatSheet
deriving DecidableEq, Repr

/-- The union type of `HistoryItem.data` in `types.ts`. -/
inductive HistoryData where
  | note (d : StudyNoteData)
  | quiz (d : QuizData)
  | homework (d : HomeworkData)
  | flashcardSet (d : FlashcardSet)
  | podcast (d : PodcastData)
  | cheatSheet (d : CheatSheetData)
deriving DecidableEq, Repr

/-- `HistoryItem` from `types.ts`.  The `type` tag and the `data` payload
are separate fields, as in the source, where the payload is only cast to
`PodcastData` after checking the tag. -/
structure HistoryItem where
  id : String
  type : ItemType
  title : String
  timestamp : ℤ
  data : HistoryData
  tags : Option (List String)
deriving DecidableEq, Repr

/-- `QuizResult` from `types.ts`. -/
structure QuizResult where
  id : String
  topic : String
  score : ℚ
  total : ℚ
  percentage : ℚ
  date : ℤ
deriving DecidableEq, Repr

/-- The collection read pattern shared by the getters: absent key or a
parse failure yields the empty list. -/
def storedList {α : Type} (st : Store α) (key : String) : List α :=
  match st key with
  | some (StoredVal.wellFormed items) => items
  | _ => []

/-- `getHistory`: read the per-user history list, returning `[]` on a
missing key or a caught parse error. -/
def getHistory (st : Store HistoryItem) (userId : String) : List HistoryItem :=
  match st (getUserKey historyKeyBase userId) with
  | some (StoredVal.wellFormed items) => items
  | some StoredVal.malformed => []
  | none => []

/-- `getQuizResults`: read the per-user quiz results, returning `[]` on a
missing key or a caught parse error. -/
def getQuizResults (st : Store QuizResult) (userId : String) : List QuizResult :=
  match st (getUserKey resultsKeyBase userId) with
  | some (StoredVal.wellFormed items) => items
  | some StoredVal.malformed => []
  | none => []

/-- `getFlashcards`: read the per-user flashcards, returning `[]` on a
missing key or a caught parse error. -/
def getFlashcards (st : Store Flashcard) (userId : String) : List Flashcard :=
  match st (getUserKey flashcardsKeyBase userId) with
  | some (StoredVal.wellFormed items) => items
  | some StoredVal.malformed => []
  | none => []

/-- The audio-stripping step of `saveToHistory`: for a podcast item whose
`audioBase64` is truthy and longer than 100 characters, replace the blob
with the empty string, keeping every other field; otherwise keep the item
as is.  A non-podcast payload under a podcast tag reads `audioBase64` as
`undefined` (falsy) and is kept as is. -/
def stripForHistory (item : HistoryItem) : HistoryItem :=
  match item.type, item.data with
  | ItemType.podcast, HistoryData.podcast pd =>
    if pd.audioBase64 ≠ "" ∧ pd.audioBase64.length > 100 then
      { item with data := HistoryData.podcast { pd with audioBase64 := "" } }
    else item
  | _, _ => item

/-- `saveToHistory`: read the current history (a parse failure aborts the
whole save via the outer catch), strip podcast audio from the new item,
prepend it, and write back through `setItemWithRetry`. -/
def saveToHistory (outcome : List HistoryItem → SetOutcome) (st : Store HistoryItem)
    (item : HistoryItem) (userId : String) : Store HistoryItem :=
  match st (getUserKey historyKeyBase userId) with
  | some StoredVal.malformed => st
  | _ =>
    setItemWithRetry outcome st (getUserKey historyKeyBase userId)
      (stripForHistory item :: storedList st (getUserKey historyKeyBase userId))

/-- Rounding commutes with clamping at 1: `Math.round (max 1 x) = max 1 (Math.round x)`. -/
theorem jsRound_max_one (x : ℚ) : jsRound (max 1 x) = max 1 (jsRound x) := by
  unfold jsRound
  rcases le_total x 1 with h | h
  · rw [max_eq_left h]
    have h1 : ⌊x + 1/2⌋ ≤ ⌊(1:ℚ) + 1/2⌋ := Int.floor_le_floor (by linarith)
    have h2 : ⌊(1:ℚ) + 1/2⌋ = 1 := by
      rw [Int.floor_eq_iff]
      push_cast
      norm_num
    rw [h2] at h1
    rw [max_eq_left h1, h2]
  · rw [max_eq_right h]
    have h1 : (1:ℤ) ≤ ⌊x + 1/2⌋ := Int.le_floor.mpr (by push_cast; linarith)
    rw [max_eq_right h1]

/-- The rounded clamped interval is at least 1. -/
theorem one_le_jsRound_max (x : ℚ) : (1:ℚ) ≤ ((jsRound (max 1 x) : ℤ) : ℚ) := by
  have h : (1:ℤ) ≤ jsRound (max 1 x) := by
    apply Int.le_floor.mpr
    have := le_max_left (1:ℚ) x
    push_cast
    linarith

  exact_mod_cast h

/-- The stored interval field is the rounded raw interval. -/
theorem handleRating_interval (c : Flashcard) (r : Rating) (now : ℚ) :
    (handleRating c r now).interval = ((jsRound (rawNewInterval c r) : ℤ) : ℚ) := rfl

/-- The ease-factor field of the updated card. -/
theorem handleRating_easeFactor (c : Flashcard) (r : Rating) (now : ℚ) :
    (handleRating c r now).easeFactor = newEaseOf c r := rfl

/-- The repetitions field of the updated card. -/
theorem handleRating_repetitions (c : Flashcard) (r : Rating) (now : ℚ) :
    (handleRating c r now).repetitions = newRepsOf c r := rfl

/-- The next-review field adds the unrounded interval in milliseconds. -/
theorem handleRating_nextReview (c : Flashcard) (r : Rating) (now : ℚ) :
    (handleRating c r now).nextReview = now + rawNewInterval c r * (24 * 60 * 60 * 1000) := rfl

/-- Rounding the constant 1. -/
theorem jsRound_one : jsRound 1 = 1 := by
  unfold jsRound
  rw [Int.floor_eq_iff]
  push_cast
  norm_num

/-- C1: the claim states `nextReview == now + interval * 86_400_000` with
`interval` the rounded stored field.  False: the source computes
`nextReview` from the unrounded `newInterval`.  A card with
`interval = 2` rated "hard" yields a stored interval of 2 but a next
review `now + 2.4 * 86_400_000`. -/
theorem C1_counterexample :
    ¬ ((handleRating ⟨"c1", "q", "a", 0, 2, 1.5, 0⟩ Rating.hard 0).nextReview =
      0 + (handleRating ⟨"c1", "q", "a", 0, 2, 1.5, 0⟩ Rating.hard 0).interval * 86400000) := by
  rw [handleRating_nextReview, handleRating_interval]
  norm_num [rawNewInterval, jsRound]

/-- C1 (amended): for every card, rating and logical now, the scheduled
card satisfies `nextReview = now + raw * 86_400_000` where `raw` is the
unrounded new interval, while the stored `interval` field is
`round raw`; the originally claimed equation holds exactly when `raw`
is an integer (for example for the "again" rating). -/
theorem C1_nextReview_from_raw_interval (card : Flashcard) (rating : Rating) (now : ℚ) :
    (handleRating card rating now).nextReview =
      now + rawNewInterval card rating * 86400000 ∧
    (handleRating card rating now).interval =
      ((jsRound (rawNewInterval card rating) : ℤ) : ℚ) := by
  refine ⟨?_, handleRating_interval card rating now⟩
  rw [handleRating_nextReview]
  norm_num

/-- C3: with `easeFactor ≥ 1.3` and `interval ≥ 0` on input, the updated
card keeps `easeFactor ≥ 1.3`; its interval is at least 1 for every
rating other than "again"; and the "again" rating forces interval 1 and
zero repetitions. -/
theorem C3_schedule_invariants (card : Flashcard) (rating : Rating) (now : ℚ)
    (h1 : 1.3 ≤ card.easeFactor) (h2 : 0 ≤ card.interval) :
    1.3 ≤ (handleRating card rating now).easeFactor ∧
    (rating ≠ Rating.again → 1 ≤ (handleRating card rating now).interval) ∧
    (rating = Rating.again →
      (handleRating card rating now).interval = 1 ∧
      (handleRating card rating now).repetitions = 0) := by
  refine ⟨?_, ?_, ?_⟩
  · rw [handleRating_easeFactor]
    cases rating with
    | again => exact h1
    | hard => exact le_max_left _ _
    | good => exact h1
    | easy =>
      show (1.3:ℚ) ≤ card.easeFactor + 0.15
      linarith
  · intro hne
    rw [handleRating_interval]
    cases rating with
    | again => exact absurd rfl hne
    | hard => exact one_le_jsRound_max _
    | good => exact one_le_jsRound_max _
    | easy => exact one_le_jsRound_max _
  · rintro rfl
    refine ⟨?_, rfl⟩
    rw [handleRating_interval]
    show ((jsRound 1 : ℤ) : ℚ) = 1
    rw [jsRound_one]
    norm_num

/-- Witness for C3 at the card with interval 0, ease factor 1.3,
rating "good". -/
theorem C3_schedule_invariants_witness :
    1.3 ≤ (handleRating ⟨"w3", "q", "a", 0, 0, 1.3, 0⟩ Rating.good 0).easeFactor ∧
    (Rating.good ≠ Rating.again →
      1 ≤ (handleRating ⟨"w3", "q", "a", 0, 0, 1.3, 0⟩ Rating.good 0).interval) ∧
    (Rating.good = Rating.again →
      (handleRating ⟨"w3", "q", "a", 0, 0, 1.3, 0⟩ Rating.good 0).interval = 1 ∧
      (handleRating ⟨"w3", "q", "a", 0, 0, 1.3, 0⟩ Rating.good 0).repetitions = 0) :=
  C3_schedule_invariants ⟨"w3", "q", "a", 0, 0, 1.3, 0⟩ Rating.good 0
    (by norm_num) (by norm_num)

/-- C4: the "again" rating always resets the interval to 1 and the
repetitions to 0, keeping the ease factor. -/
theorem C4_again_resets (card : Flashcard) (now : ℚ) :
    (handleRating card Rating.again now).interval = 1 ∧
    (handleRating card Rating.again now).repetitions = 0 ∧
    (handleRating card Rating.again now).easeFactor = card.easeFactor := by
  refine ⟨?_, rfl, rfl⟩
  rw [handleRating_interval]
  show ((jsRound 1 : ℤ) : ℚ) = 1
  rw [jsRound_one]
  norm_num

/-- C5: the "hard" rating yields interval `max 1 (round (interval * 1.2))`,
ease factor `max 1.3 (easeFactor - 0.15)` and one more repetition; the
card with interval 5, ease 1.4, repetitions 2 maps to interval 6,
ease 1.3, repetitions 3. -/
theorem C5_hard_rating (card : Flashcard) (now : ℚ)
    (h1 : 1.3 ≤ card.easeFactor) (h2 : 0 ≤ card.interval) :
    ((handleRating card Rating.hard now).interval =
        ((max 1 (jsRound (card.interval * 1.2)) : ℤ) : ℚ) ∧
      (handleRating card Rating.hard now).easeFactor =
        max 1.3 (card.easeFactor - 0.15) ∧
      (handleRating card Rating.hard now).repetitions = card.repetitions + 1) ∧
    ((handleRating ⟨"c5", "q", "a", 0, 5, 1.4, 2⟩ Rating.hard now).interval = 6 ∧
      (handleRating ⟨"c5", "q", "a", 0, 5, 1.4, 2⟩ Rating.hard now).easeFactor = 1.3 ∧
      (handleRating ⟨"c5", "q", "a", 0, 5, 1.4, 2⟩ Rating.hard now).repetitions = 3) := by
  refine ⟨⟨?_, rfl, rfl⟩, ⟨?_, ?_, rfl⟩⟩
  · rw [handleRating_interval]
    show ((jsRound (max 1 (card.interval * 1.2)) : ℤ) : ℚ) = _
    rw [jsRound_max_one]
  · rw [handleRating_interval]
    show ((jsRound (max 1 ((5:ℚ) * 1.2)) : ℤ) : ℚ) = 6
    rw [jsRound_max_one]
    norm_num [jsRound]
  · rw [handleRating_easeFactor]
    show max 1.3 ((1.4:ℚ) - 0.15) = 1.3
    norm_num

/-- Witness for C5 at the card with interval 5, ease 1.4, repetitions 2. -/
theorem C5_hard_rating_witness :
    ((handleRating ⟨"c5", "q", "a", 0, 5, 1.4, 2⟩ Rating.hard 0).interval =
        ((max 1 (jsRound ((5:ℚ) * 1.2)) : ℤ) : ℚ) ∧
      (handleRating ⟨"c5", "q", "a", 0, 5, 1.4, 2⟩ Rating.hard 0).easeFactor =
        max 1.3 ((1.4:ℚ) - 0.15) ∧
      (handleRating ⟨"c5", "q", "a", 0, 5, 1.4, 2⟩ Rating.hard 0).repetitions = 2 + 1) ∧
    ((handleRating ⟨"c5", "q", "a", 0, 5, 1.4, 2⟩ Rating.hard 0).interval = 6 ∧
      (handleRating ⟨"c5", "q", "a", 0, 5, 1.4, 2⟩ Rating.hard 0).easeFactor = 1.3 ∧
      (handleRating ⟨"c5", "q", "a", 0, 5, 1.4, 2⟩ Rating.hard 0).repetitions = 3) :=
  C5_hard_rating ⟨"c5", "q", "a", 0, 5, 1.4, 2⟩ 0 (by norm_num) (by norm_num)

/-- C6: the "easy" rating adds 0.15 to the ease factor with no upper
clamp, sets the interval to `max 1 (round (interval * 1.3 * e))` with `e`
the input ease factor, and adds one repetition. -/
theorem C6_easy_rating (card : Flashcard) (now : ℚ) (h : 0 ≤ card.interval) :
    (handleRating card Rating.easy now).easeFactor = card.easeFactor + 0.15 ∧
    (handleRating card Rating.easy now).interval =
      ((max 1 (jsRound (card.interval * 1.3 * card.easeFactor)) : ℤ) : ℚ) ∧
    (handleRating card Rating.easy now).repetitions = card.repetitions + 1 := by
  refine ⟨rfl, ?_, rfl⟩
  rw [handleRating_interval]
  show ((jsRound (max 1 (card.interval * 1.3 * card.easeFactor)) : ℤ) : ℚ) = _
  rw [jsRound_max_one]

/-- Witness for C6 at the card with interval 10, ease 2.5. -/
theorem C6_easy_rating_witness :
    (handleRating ⟨"w6", "q", "a", 0, 10, 2.5, 3⟩ Rating.easy 0).easeFactor = 2.5 + 0.15 ∧
    (handleRating ⟨"w6", "q", "a", 0, 10, 2.5, 3⟩ Rating.easy 0).interval =
      ((max 1 (jsRound ((10:ℚ) * 1.3 * 2.5)) : ℤ) : ℚ) ∧
    (handleRating ⟨"w6", "q", "a", 0, 10, 2.5, 3⟩ Rating.easy 0).repetitions = 3 + 1 :=
  C6_easy_rating ⟨"w6", "q", "a", 0, 10, 2.5, 3⟩ 0 (by norm_num)

/-- Unfolding `setItemWithRetry` when the write succeeds. -/
theorem setItemWithRetry_ok {α : Type} (outcome : List α → SetOutcome) (st : Store α)
    (key : String) (data : List α) (h : outcome data = SetOutcome.ok) :
    setItemWithRetry outcome st key data =
      Function.update st key (some (StoredVal.wellFormed data)) := by
  rw [setItemWithRetry, h]

/-- Unfolding `setItemWithRetry` on a quota error with more than one item. -/
theorem setItemWithRetry_quota_big {α : Type} (outcome : List α → SetOutcome) (st : Store α)
    (key : String) (data : List α) (h : outcome data = SetOutcome.quota)
    (hlen : data.length > 1) :
    setItemWithRetry outcome st key data =
      setItemWithRetry outcome st key (data.take (data.length / 2)) := by
  rw [setItemWithRetry, h]
  exact dif_pos hlen

/-- Unfolding `setItemWithRetry` on a quota error at one item or fewer. -/
theorem setItemWithRetry_quota_small {α : Type} (outcome : List α → SetOutcome) (st : Store α)
    (key : String) (data : List α) (h : outcome data = SetOutcome.quota)
    (hlen : ¬ data.length > 1) :
    setItemWithRetry outcome st key data = st := by
  rw [setItemWithRetry, h]
  exact dif_neg hlen

/-- Unfolding `setItemWithRetry` on a non-quota storage error. -/
theorem setItemWithRetry_otherErr {α : Type} (outcome : List α → SetOutcome) (st : Store α)
    (key : String) (data : List α) (h : outcome data = SetOutcome.otherErr) :
    setItemWithRetry outcome st key data = st := by
  rw [setItemWithRetry, h]

/-- Every size in the halving sequence is at most the starting size. -/
theorem mem_halvingSizes_le : ∀ (n m : ℕ), m ∈ halvingSizes n → m ≤ n := by
  intro n
  induction n using Nat.strong_induction_on with
  | _ n ih =>
    intro m h
    rw [halvingSizes] at h
    by_cases hn : n ≤ 1
    · rw [if_pos hn] at h
      cases h
    · rw [if_neg hn] at h
      rcases List.mem_cons.mp h with h1 | h1
      · omega
      · have h2 := ih (n / 2) (by omega) m h1
        omega

/-- Congruence for `List.find?` under predicates that agree on the list. -/
theorem find?_eq_of_eq_on {α : Type} (p q : α → Bool) :
    ∀ l : List α, (∀ a ∈ l, p a = q a) → l.find? p = l.find? q := by
  intro l
  induction l with
  | nil => intro _; rfl
  | cons a l ih =>
    intro h
    rw [List.find?_cons, List.find?_cons, h a (List.mem_cons_self a l)]
    cases q a with
    | true => rfl
    | false => exact ih fun b hb => h b (List.mem_cons_of_mem a hb)

/-- When the initial write fails on quota, every error is a quota error,
and `k` is the first size in the halving sequence whose prefix the
storage accepts, the retry loop stores exactly the length-`k` prefix. -/
theorem setItemWithRetry_finds_first_fit {α : Type} (outcome : List α → SetOutcome)
    (st : Store α) (key : String) (data : List α) (k : ℕ)
    (honly : ∀ m : ℕ, outcome (data.take m) ≠ SetOutcome.otherErr)
    (hq : outcome data = SetOutcome.quota)
    (hfind : (halvingSizes data.length).find?
        (fun m => decide (outcome (data.take m) = SetOutcome.ok)) = some k) :
    setItemWithRetry outcome st key data =
      Function.update st key (some (StoredVal.wellFormed (data.take k))) := by
  have hlen : data.length > 1 := by
    by_contra hle
    rw [halvingSizes, if_pos (by omega)] at hfind
    cases hfind
  rw [setItemWithRetry_quota_big outcome st key data hq hlen]
  rw [halvingSizes, if_neg (by omega), List.find?_cons] at hfind
  cases ho : outcome (data.take (data.length / 2)) with
  | ok =>
    simp only [ho, decide_True, eq_self_iff_true] at hfind
    rw [setItemWithRetry_ok outcome st key _ ho]
    injection hfind with hk
    rw [← hk]
  | quota =>
    simp only [ho] at hfind
    have hlt : (data.take (data.length / 2)).length = data.length / 2 := by
      simp only [List.length_take]
      omega
    have honly2 : ∀ m : ℕ,
        outcome ((data.take (data.length / 2)).take m) ≠ SetOutcome.otherErr := by
      intro m
      rw [List.take_take]
      exact honly _
    have hfind2 : (halvingSizes (data.take (data.length / 2)).length).find?
        (fun m => decide (outcome ((data.take (data.length / 2)).take m) = SetOutcome.ok))
        = some k := by
      rw [hlt]
      have hcong : (halvingSizes (data.length / 2)).find?
          (fun m => decide (outcome ((data.take (data.length / 2)).take m) = SetOutcome.ok)) =
          (halvingSizes (data.length / 2)).find?
          (fun m => decide (outcome (data.take m) = SetOutcome.ok)) := by
        apply find?_eq_of_eq_on
        intro m hm
        have hmle : m ≤ data.length / 2 := mem_halvingSizes_le _ m hm
        rw [List.take_take, Nat.min_eq_left hmle]
      rw [hcong]
      exact hfind
    have hrec := setItemWithRetry_finds_first_fit outcome st key
      (data.take (data.length / 2)) k honly2 ho hfind2
    rw [hrec]
    have hk : k ≤ data.length / 2 := mem_halvingSizes_le _ k (List.mem_of_find?_eq_some hfind)
    rw [List.take_take, Nat.min_eq_left hk]
  | otherErr =>
    exact absurd ho (honly _)
termination_by data.length
decreasing_by simp only [List.length_take]; omega

/-- When every attempted prefix hits the quota, the retry loop changes
nothing. -/
theorem setItemWithRetry_all_quota {α : Type} (outcome : List α → SetOutcome)
    (st : Store α) (key : String) (data : List α)
    (hq : ∀ n : ℕ, outcome (data.take n) = SetOutcome.quota) :
    setItemWithRetry outcome st key data = st := by
  have h0 : outcome data = SetOutcome.quota := by
    have h := hq data.length
    rwa [List.take_length data] at h
  by_cases hlen : data.length > 1
  · rw [setItemWithRetry_quota_big outcome st key data h0 hlen]
    exact setItemWithRetry_all_quota outcome st key (data.take (data.length / 2))
      (fun n => by rw [List.take_take]; exact hq _)
  · exact setItemWithRetry_quota_small outcome st key data h0 hlen
termination_by data.length
decreasing_by simp only [List.length_take]; omega

/-- With any fuel above the list length, the fuel-bounded retry loop
never runs out and computes the same store as the recursive one. -/
theorem setItemWithRetryFuel_eq {α : Type} (outcome : List α → SetOutcome)
    (st : Store α) (key : String) :
    ∀ (fuel : ℕ) (data : List α), data.length < fuel →
      setItemWithRetryFuel outcome fuel st key data =
        some (setItemWithRetry outcome st key data) := by
  intro fuel
  induction fuel with
  | zero => intro data h; omega
  | succ fuel ih =>
    intro data h
    cases ho : outcome data with
    | ok =>
      simp only [setItemWithRetryFuel, ho]
      rw [setItemWithRetry_ok outcome st key data ho]
    | quota =>
      simp only [setItemWithRetryFuel, ho]
      by_cases hlen : data.length > 1
      · rw [if_pos hlen, setItemWithRetry_quota_big outcome st key data ho hlen]
        exact ih (data.take (data.length / 2)) (by simp only [List.length_take]; omega)
      · rw [if_neg hlen, setItemWithRetry_quota_small outcome st key data ho hlen]
    | otherErr =>
      simp only [setItemWithRetryFuel, ho]
      rw [setItemWithRetry_otherErr outcome st key data ho]

/-- C2: for a non-empty list whose serialization exceeds capacity (all
failures being quota failures), `setItemWithRetry` stores exactly the
prefix of the input of length `k`, where `k` is the first size in the
halving sequence `N/2, N/4, ..., 1` whose prefix fits; items are never
reordered, only truncated from the tail, since the stored value is
`data.take k`. -/
theorem C2_prune_stores_first_fitting_prefix {α : Type} (outcome : List α → SetOutcome)
    (st : Store α) (key : String) (data : List α) (k : ℕ)
    (hne : data ≠ [])
    (honly : ∀ m : ℕ, outcome (data.take m) ≠ SetOutcome.otherErr)
    (hq : outcome data = SetOutcome.quota)
    (hfind : (halvingSizes data.length).find?
        (fun m => decide (outcome (data.take m) = SetOutcome.ok)) = some k) :
    setItemWithRetry outcome st key data =
      Function.update st key (some (StoredVal.wellFormed (data.take k))) :=
  setItemWithRetry_finds_first_fit outcome st key data k honly hq hfind

/-- Witness for C2: eight items, capacity admits only a single item, so
the sizes 4 and 2 fail and the stored result is the first item alone. -/
theorem C2_prune_stores_first_fitting_prefix_witness :
    setItemWithRetry (fun l : List ℕ => if l.length ≤ 1 then SetOutcome.ok else SetOutcome.quota)
        (fun _ => none) "k" [1, 2, 3, 4, 5, 6, 7, 8] =
      Function.update (fun _ => none) "k"
        (some (StoredVal.wellFormed (List.take 1 [1, 2, 3, 4, 5, 6, 7, 8]))) :=
  C2_prune_stores_first_fitting_prefix
    (fun l : List ℕ => if l.length ≤ 1 then SetOutcome.ok else SetOutcome.quota)
    (fun _ => none) "k" [1, 2, 3, 4, 5, 6, 7, 8] 1
    (by decide)
    (by intro m; dsimp only; split <;> decide)
    (by decide)
    (by simp [halvingSizes, List.find?])

/-- C7: when every pruned attempt, down to the single-item list, still
fails with a quota error, `setItemWithRetry` leaves the whole store (in
particular the value under the written key) unchanged; being a total
function into `Store`, it propagates no exception to its caller. -/
theorem C7_quota_failure_leaves_store_unchanged {α : Type} (outcome : List α → SetOutcome)
    (st : Store α) (key : String) (data : List α)
    (hq : ∀ n : ℕ, outcome (data.take n) = SetOutcome.quota) :
    setItemWithRetry outcome st key data = st :=
  setItemWithRetry_all_quota outcome st key data hq

/-- Witness for C7: a single item that always exceeds the quota. -/
theorem C7_quota_failure_leaves_store_unchanged_witness :
    setItemWithRetry (fun _ : List ℕ => SetOutcome.quota) (fun _ => none) "k" [5] =
      (fun _ => none) :=
  C7_quota_failure_leaves_store_unchanged (fun _ : List ℕ => SetOutcome.quota)
    (fun _ => none) "k" [5] (fun _ => rfl)

/-- C8: the collection getters `getHistory`, `getQuizResults` and
`getFlashcards` return the empty list, not an error, when the key is
absent or when the stored value fails to parse. -/
theorem C8_reads_default_to_empty (sth : Store HistoryItem) (stq : Store QuizResult)
    (stf : Store Flashcard) (userId : String)
    (hh : sth (getUserKey historyKeyBase userId) = none ∨
      sth (getUserKey historyKeyBase userId) = some StoredVal.malformed)
    (hq : stq (getUserKey resultsKeyBase userId) = none ∨
      stq (getUserKey resultsKeyBase userId) = some StoredVal.malformed)
    (hf : stf (getUserKey flashcardsKeyBase userId) = none ∨
      stf (getUserKey flashcardsKeyBase userId) = some StoredVal.malformed) :
    getHistory sth userId = [] ∧ getQuizResults stq userId = [] ∧
      getFlashcards stf userId = [] := by
  refine ⟨?_, ?_, ?_⟩
  · unfold getHistory
    rcases hh with h | h <;> rw [h]
  · unfold getQuizResults
    rcases hq with h | h <;> rw [h]
  · unfold getFlashcards
    rcases hf with h | h <;> rw [h]

/-- Witness for C8 on an empty store. -/
theorem C8_reads_default_to_empty_witness :
    getHistory (fun _ => none) "u" = [] ∧ getQuizResults (fun _ => none) "u" = [] ∧
      getFlashcards (fun _ => none) "u" = [] :=
  C8_reads_default_to_empty (fun _ => none) (fun _ => none) (fun _ => none) "u"
    (Or.inl rfl) (Or.inl rfl) (Or.inl rfl)

/-- C9: the claim as stated is false: a podcast item whose audio blob is
nonempty but not longer than 100 characters is inserted with the blob
intact.  Here the blob is the one-character string `x` and the stored
head item still carries it. -/
theorem C9_counterexample :
    saveToHistory (fun _ => SetOutcome.ok) (fun _ => none)
        ⟨"i1", ItemType.podcast, "t", 0, HistoryData.podcast ⟨"pt", "tp", "s", "x", 0⟩, none⟩
        "u" =
      Function.update (fun _ => none) (getUserKey historyKeyBase "u")
        (some (StoredVal.wellFormed
          [⟨"i1", ItemType.podcast, "t", 0, HistoryData.podcast ⟨"pt", "tp", "s", "x", 0⟩,
            none⟩])) ∧
    ("x" : String) ≠ "" := by
  refine ⟨?_, by decide⟩
  have h1 : saveToHistory (fun _ => SetOutcome.ok) (fun _ => none)
      ⟨"i1", ItemType.podcast, "t", 0, HistoryData.podcast ⟨"pt", "tp", "s", "x", 0⟩, none⟩
      "u" =
      setItemWithRetry (fun _ => SetOutcome.ok) (fun _ => none) (getUserKey historyKeyBase "u")
        (stripForHistory
            ⟨"i1", ItemType.podcast, "t", 0, HistoryData.podcast ⟨"pt", "tp", "s", "x", 0⟩,
              none⟩ ::
          storedList (fun _ => none) (getUserKey historyKeyBase "u")) := rfl
  rw [h1, setItemWithRetry_ok _ _ _ _ rfl]
  rfl

/-- C9 (amended): the blob is stripped exactly when it is truthy and
longer than 100 characters.  For such an item, `saveToHistory` prepends
a copy whose `audioBase64` is the empty string, every other field of the
item and of its podcast data unchanged, and does so for every capacity
behavior of the storage. -/
theorem C9_strips_large_podcast_audio (outcome : List HistoryItem → SetOutcome)
    (st : Store HistoryItem) (item : HistoryItem) (pd : PodcastData) (userId : String)
    (htype : item.type = ItemType.podcast)
    (hdata : item.data = HistoryData.podcast pd)
    (hlen : 100 < pd.audioBase64.length)
    (hread : st (getUserKey historyKeyBase userId) ≠ some StoredVal.malformed) :
    saveToHistory outcome st item userId =
      setItemWithRetry outcome st (getUserKey historyKeyBase userId)
        ({ item with data := HistoryData.podcast { pd with audioBase64 := "" } } ::
          storedList st (getUserKey historyKeyBase userId)) := by
  have hne : pd.audioBase64 ≠ "" := by
    intro h0
    rw [h0] at hlen
    have hz : ("" : String).length = 0 := rfl
    omega
  have hstrip : stripForHistory item =
      { item with data := HistoryData.podcast { pd with audioBase64 := "" } } := by
    obtain ⟨i, ty, ttl, ts, dat, tg⟩ := item
    change ty = ItemType.podcast at htype
    change dat = HistoryData.podcast pd at hdata
    subst htype
    subst hdata
    unfold stripForHistory
    dsimp only
    rw [if_pos ⟨hne, hlen⟩]
  unfold saveToHistory
  cases hst : st (getUserKey historyKeyBase userId) with
  | none =>
    rw [hstrip]
  | some v =>
    cases v with
    | wellFormed l =>
      rw [hstrip]
    | malformed =>
      exact absurd hst hread

/-- Witness for C9 (amended) with a 101-character blob and a storage
that always reports a quota failure. -/
theorem C9_strips_large_podcast_audio_witness :
    saveToHistory (fun _ => SetOutcome.quota) (fun _ => none)
        ⟨"i9", ItemType.podcast, "t", 0,
          HistoryData.podcast ⟨"pt", "tp", "s", String.mk (List.replicate 101 'a'), 0⟩,
          none⟩ "u" =
      setItemWithRetry (fun _ => SetOutcome.quota) (fun _ => none)
        (getUserKey historyKeyBase "u")
        ({ (⟨"i9", ItemType.podcast, "t", 0,
              HistoryData.podcast ⟨"pt", "tp", "s", String.mk (List.replicate 101 'a'), 0⟩,
              none⟩ : HistoryItem) with
            data := HistoryData.podcast
              { (⟨"pt", "tp", "s", String.mk (List.replicate 101 'a'), 0⟩ : PodcastData) with
                audioBase64 := "" } } ::
          storedList (fun _ => none) (getUserKey historyKeyBase "u")) :=
  C9_strips_large_podcast_audio (fun _ => SetOutcome.quota) (fun _ => none)
    ⟨"i9", ItemType.podcast, "t", 0,
      HistoryData.podcast ⟨"pt", "tp", "s", String.mk (List.replicate 101 'a'), 0⟩, none⟩
    ⟨"pt", "tp", "s", String.mk (List.replicate 101 'a'), 0⟩ "u"
    rfl rfl (by decide) (by decide)

/-- C10: the recursive write terminates: with fuel `data.length + 1` the
fuel-bounded variant never exhausts its fuel and agrees with
`setItemWithRetry`; each recursive call halves the list length and the
recursion stops at a single item. -/
theorem C10_setItemWithRetry_terminates {α : Type} (outcome : List α → SetOutcome)
    (st : Store α) (key : String) (data : List α) :
    setItemWithRetryFuel outcome (data.length + 1) st key data =
      some (setItemWithRetry outcome st key data) :=
  setItemWithRetryFuel_eq outcome st key (data.length + 1) data (by omega)

end StudyGenius
